import Mathlib

/-!
Verification of the telemetry layer of `hardware/rpiInfo/rpiInfo.c`
(UCTRONICS display utility, AlmaLinux/RHEL fork).

The repository carries three revisions of `rpiInfo.c`.  The current
revision (revision A, the one the header `rpiInfo.h` and the display code
build against) is embedded below; the second revision (revision B) computes
`get_sd_memory` and `get_hard_disk_memory` identically to revision A, so a
single embedding covers both.  Where a claim needs it, the superseded third
revision (revision C) of `get_sd_memory` is embedded as well, under the
name `get_sd_memory_revC`.

Modelling conventions:
  - C unsigned 64/32/16-bit arithmetic is `Nat` with explicit reduction
    modulo `2^64`, `2^32`, `2^16`.
  - `statvfs` results are a structure of the five fields the code reads;
    syscall success is an explicit `Bool`.
  - C `double` arithmetic is modelled over `ℚ`; the `(int)`/`(uint8_t)`
    casts (truncation toward zero) are `truncInt`.
  - C strings are `List Char`; the hostname buffer of 256 bytes means
    the stored hostname is the first 255 characters of the real one.
  - Output pointers are modelled by `Bool` null-flags on the `_call`
    wrappers; the writes a call performs are an `Option` of the values
    written, `none` meaning no write happened.
-/

namespace RpiInfo

/-- Reduction modulo `2^64`: C `unsigned long long` arithmetic. -/
def u64 (n : Nat) : Nat := n % 2 ^ 64

/-- Reduction modulo `2^32`: the C cast to `uint32_t`. -/
def u32 (n : Nat) : Nat := n % 2 ^ 32

/-- Reduction modulo `2^16`: the C cast to `uint16_t`. -/
def u16 (n : Nat) : Nat := n % 2 ^ 16

/-- C 64-bit unsigned subtraction `a - b` (wraps around), for `a b < 2^64`. -/
def sub64 (a b : Nat) : Nat := (a + 2 ^ 64 - b) % 2 ^ 64

/-- The fields of `struct statvfs` that `rpiInfo.c` reads. -/
structure Statvfs where
  f_bsize : Nat
  f_frsize : Nat
  f_blocks : Nat
  f_bfree : Nat
  f_bavail : Nat
deriving DecidableEq, Repr

/-- `block = vfs.f_frsize ? vfs.f_frsize : vfs.f_bsize` (rpiInfo.c:229). -/
def sd_block (v : Statvfs) : Nat := if v.f_frsize ≠ 0 then v.f_frsize else v.f_bsize

/-- Embedding of `get_sd_memory` (rpiInfo.c:216-242, current revision;
revision B at rpiInfo.c:553-575 computes the same values).  `ok` is whether
`statvfs("/")` succeeded; the result is the pair (`*MemSize`, `*freesize`)
written through the (non-null) pointers. -/
def get_sd_memory (ok : Bool) (v : Statvfs) : Nat × Nat :=
  if ok then
    let block := sd_block v
    let total := u64 (v.f_blocks * block)
    let free_all := u64 (v.f_bfree * block)
    let used := sub64 total free_all
    (u32 (total / (1024 * 1024)), u32 (used / (1024 * 1024)))
  else (0, 0)

/-- Embedding of the superseded revision C of `get_sd_memory`
(rpiInfo.c:806-819): it multiplies by `f_frsize` directly and stores the
FREE megabytes, not the used megabytes, in `*freesize`. -/
def get_sd_memory_revC (ok : Bool) (v : Statvfs) : Nat × Nat :=
  if ok then
    let total := u64 (v.f_blocks * v.f_frsize)
    let freeb := u64 (v.f_bfree * v.f_frsize)
    (u32 (total / (1024 * 1024)), u32 (freeb / (1024 * 1024)))
  else (0, 0)

/-- Embedding of `get_hard_disk_memory` (rpiInfo.c:346-372, current
revision).  Result is (return code, `*diskMemSize`, `*useMemSize`). -/
def get_hard_disk_memory (ok : Bool) (v : Statvfs) : Nat × Nat × Nat :=
  if ok then
    let block := sd_block v
    let total := u64 (v.f_blocks * block)
    let avail := u64 (v.f_bavail * block)
    let used := sub64 total avail
    (0, u16 (u64 (total + 2 ^ 29) / 2 ^ 30), u16 (u64 (used + 2 ^ 29) / 2 ^ 30))
  else (1, 0, 0)

/-- `get_sd_memory` including its NULL-pointer guard (rpiInfo.c:224-225):
`memNull`/`freeNull` say whether the respective out-pointer is NULL;
`none` means the function returned without writing anything. -/
def get_sd_memory_call (memNull freeNull : Bool) (ok : Bool) (v : Statvfs) :
    Option (Nat × Nat) :=
  if memNull || freeNull then none else some (get_sd_memory ok v)

/-- The computation of `get_cpu_memory` past its guard (rpiInfo.c:257-280):
`openOk` is whether `/proc/meminfo` could be opened, `memTotalKB` and
`memAvailableKB` are the values the scan loop extracted. -/
def get_cpu_memory_core (openOk : Bool) (memTotalKB memAvailableKB : ℤ) : ℚ × ℚ :=
  if openOk then ((memTotalKB : ℚ) / 1024, (memAvailableKB : ℚ) / 1024)
  else (0, 0)

/-- `get_cpu_memory` including its NULL-pointer guard (rpiInfo.c:254-255). -/
def get_cpu_memory_call (totNull freeNull : Bool) (openOk : Bool)
    (memTotalKB memAvailableKB : ℤ) : Option (ℚ × ℚ) :=
  if totNull || freeNull then none
  else some (get_cpu_memory_core openOk memTotalKB memAvailableKB)

/-- `get_hard_disk_memory` including its NULL-pointer guard
(rpiInfo.c:354-355): result is (return code, writes performed). -/
def get_hard_disk_memory_call (dNull uNull : Bool) (ok : Bool) (v : Statvfs) :
    Nat × Option (Nat × Nat) :=
  if dNull || uNull then (1, none)
  else
    let r := get_hard_disk_memory ok v
    (r.1, some (r.2.1, r.2.2))

/-- The C cast of a `double` to an integer type: truncation toward zero. -/
def truncInt (q : ℚ) : ℤ := if 0 ≤ q then ⌊q⌋ else ⌈q⌉

/-- The clamping of the per-core load in `get_cpu_message`
(rpiInfo.c:333-334): `if (ratio < 0.0) ratio = 0.0; if (ratio > 4.0) ratio = 4.0;`. -/
def clampLoad (r : ℚ) : ℚ := if r < 0 then 0 else if r > 4 then 4 else r

/-- The bucket computation of `get_cpu_message` (rpiInfo.c:332-339) as a
function of the per-core load `r = la1 / cores`:
`bucket = (int)(ratio * (255.0/4.0) + 0.5)`, clamped to `[0, 255]`. -/
def cpu_bucket (r : ℚ) : ℤ :=
  let b := truncInt (clampLoad r * (255 / 4) + 1 / 2)
  if b < 0 then 0 else if b > 255 then 255 else b

/-- Embedding of `get_cpu_message` (rpiInfo.c:313-340).  `readOk` is
whether `/proc/loadavg` was opened and scanned successfully (otherwise
`la1 = 0.0`); `cores` is the `sysconf` result, forced up to 1. -/
def get_cpu_message (readOk : Bool) (la1 : ℚ) (cores : ℤ) : ℤ :=
  let la := if readOk then la1 else 0
  let c : ℤ := if cores < 1 then 1 else cores
  cpu_bucket (la / (c : ℚ))

/-- Embedding of `get_temperature` (rpiInfo.c:284-310).  `read` is the
`strtol` value of the first thermal-zone file that could be read
(`none` when both reads fail, leaving `milli = 0`); `fahrenheit` is the
compile-time `TEMPERATURE_TYPE == FAHRENHEIT` test. -/
def get_temperature (read : Option ℤ) (fahrenheit : Bool) : ℤ :=
  let milli := read.getD 0
  let t0 : ℚ := (milli : ℚ) / 1000
  let t1 : ℚ := if fahrenheit then t0 * 9 / 5 + 32 else t0
  let t2 : ℚ := if t1 < 0 then 0 else t1
  let t3 : ℚ := if t2 > 255 then 255 else t2
  truncInt (t3 + 1 / 2)

/-- `upcase_ascii` on a single character (rpiInfo.c:151-160):
`if (*p >= 'a' && *p <= 'z') *p = *p - 'a' + 'A'`. -/
def upcaseChar (c : Char) : Char :=
  if 'a' ≤ c ∧ c ≤ 'z' then Char.ofNat (c.toNat - 97 + 65) else c

/-- `upcase_ascii` (rpiInfo.c:151-160): uppercase ASCII letters in place. -/
def upcase_ascii (s : List Char) : List Char := s.map upcaseChar

/-- The fallback hostname `"unknown"` (rpiInfo.c:176). -/
def unknownHost : List Char := ['u', 'n', 'k', 'n', 'o', 'w', 'n']

/-- The 256-byte hostname buffer after `gethostname` plus forced NUL
termination (rpiInfo.c:166-178): on `gethostname` failure the buffer
holds `"unknown"`; otherwise the first 255 characters of the hostname. -/
def hostnameBuf (host : Option (List Char)) : List Char :=
  (host.getD unknownHost).take 255

/-- The `": "` separator of the `snprintf "%s: %s"` format (rpiInfo.c:197). -/
def colonSpace : List Char := [':', ' ']

/-- Embedding of `get_ip_address` (rpiInfo.c:164-207, current revision).
`ipDisabled` is the compile-time `IP_SWITCH == IP_DISPLAY_CLOSE` test;
`host` is the hostname (`none` if `gethostname` failed); `ip` is what
`lookup_ipv4_for_iface` found for the configured interface. -/
def get_ip_address (ipDisabled : Bool) (host : Option (List Char))
    (ip : Option (List Char)) : List Char :=
  let hostname := hostnameBuf host
  if ipDisabled then upcase_ascii hostname
  else
    match ip with
    | some s => hostname ++ colonSpace ++ s
    | none => hostname

/-- Embedding of `get_ip_address_new` (rpiInfo.c:209-213): the body is a
single delegation, `return get_ip_address();`. -/
def get_ip_address_new (ipDisabled : Bool) (host : Option (List Char))
    (ip : Option (List Char)) : List Char :=
  get_ip_address ipDisabled host ip

/-- A successful `statvfs("/")` sample of a 4 GB root filesystem:
4096-byte blocks, 1000000 blocks, 400000 free, 300000 available. -/
def sdSampleC1 : Statvfs := ⟨4096, 4096, 1000000, 400000, 300000⟩

/-- A successful `statvfs("/")` sample of a 4 PiB filesystem (1 MiB
blocks, `2^32` of them) that is almost full: its total megabyte count,
`2^32`, overflows the `uint32_t` output of `get_sd_memory`. -/
def sdSampleBig : Statvfs := ⟨1048576, 1048576, 4294967296, 1, 1⟩

/-- A successful `statvfs("/")` sample of a 64 TiB filesystem (4096-byte
blocks, `2^34` of them) with 1 GiB available: its total rounds to `2^16`
gigabytes, which overflows the `uint16_t` output of
`get_hard_disk_memory`. -/
def diskSampleBig : Statvfs := ⟨4096, 4096, 17179869184, 262144, 262144⟩

/-- A small successful `statvfs("/")` sample used to instantiate the
bounded disk theorems. -/
def sdSampleSmall : Statvfs := ⟨4096, 4096, 1000, 100, 50⟩

/-- A 255-character hostname, the longest the 256-byte buffer holds. -/
def longHost : List Char := List.replicate 255 'a'

/-- The IPv4 text `"10.0.0.1"`. -/
def ipSample : List Char := ['1', '0', '.', '0', '.', '0', '.', '1']

/-- The hostname `"node1"` of the end-to-end example. -/
def nodeHost : List Char := ['n', 'o', 'd', 'e', '1']

theorem truncInt_of_nonneg {q : ℚ} (h : 0 ≤ q) : truncInt q = ⌊q⌋ := if_pos h

theorem u64_id {n : Nat} (h : n < 2 ^ 64) : u64 n = n := Nat.mod_eq_of_lt h

theorem u32_id {n : Nat} (h : n < 2 ^ 32) : u32 n = n := Nat.mod_eq_of_lt h

theorem u16_id {n : Nat} (h : n < 2 ^ 16) : u16 n = n := Nat.mod_eq_of_lt h

theorem sub64_eq {a b : Nat} (hba : b ≤ a) (ha : a < 2 ^ 64) : sub64 a b = a - b := by
  unfold sub64
  have h1 : a + 2 ^ 64 - b = (a - b) + 2 ^ 64 := by omega
  rw [h1, Nat.add_mod_right]
  exact Nat.mod_eq_of_lt (by omega)

theorem clampLoad_nonneg (r : ℚ) : 0 ≤ clampLoad r := by
  unfold clampLoad; split_ifs <;> linarith

theorem clampLoad_mono {r s : ℚ} (h : r ≤ s) : clampLoad r ≤ clampLoad s := by
  unfold clampLoad; split_ifs <;> linarith

theorem cpu_bucket_mono {r s : ℚ} (h : r ≤ s) : cpu_bucket r ≤ cpu_bucket s := by
  simp only [cpu_bucket]
  have h0r : (0:ℚ) ≤ clampLoad r * (255 / 4) + 1 / 2 := by
    have := clampLoad_nonneg r; linarith
  have h0s : (0:ℚ) ≤ clampLoad s * (255 / 4) + 1 / 2 := by
    have := clampLoad_nonneg s; linarith
  have harg : clampLoad r * (255 / 4) + 1 / 2 ≤ clampLoad s * (255 / 4) + 1 / 2 := by
    have := clampLoad_mono h; linarith
  have hfl : truncInt (clampLoad r * (255 / 4) + 1 / 2) ≤
      truncInt (clampLoad s * (255 / 4) + 1 / 2) := by
    rw [truncInt_of_nonneg h0r, truncInt_of_nonneg h0s]
    exact Int.floor_mono harg
  split_ifs <;> omega

theorem cpu_bucket_zero : cpu_bucket 0 = 0 := by
  have hc : clampLoad 0 = 0 := by norm_num [clampLoad]
  have hf : ⌊(0 * (255 / 4) + 1 / 2 : ℚ)⌋ = 0 := by
    rw [Int.floor_eq_iff]; norm_num
  have ht : truncInt (clampLoad 0 * (255 / 4) + 1 / 2) = 0 := by
    rw [hc, truncInt_of_nonneg (by norm_num)]; exact hf
  simp only [cpu_bucket, ht]; norm_num

theorem cpu_bucket_sat {r : ℚ} (h : 4 ≤ r) : cpu_bucket r = 255 := by
  have hc : clampLoad r = 4 := by
    unfold clampLoad; split_ifs <;> linarith
  have hf : ⌊(4 * (255 / 4) + 1 / 2 : ℚ)⌋ = 255 := by
    rw [Int.floor_eq_iff]; norm_num
  have ht : truncInt (clampLoad r * (255 / 4) + 1 / 2) = 255 := by
    rw [hc, truncInt_of_nonneg (by norm_num)]; exact hf
  simp only [cpu_bucket, ht]; norm_num

theorem truncInt_bounds {q : ℚ} (h0 : 0 ≤ q) (h255 : q ≤ 255) :
    0 ≤ truncInt (q + 1 / 2) ∧ truncInt (q + 1 / 2) ≤ 255 := by
  rw [truncInt_of_nonneg (by linarith)]
  constructor
  · exact Int.le_floor.mpr (by push_cast; linarith)
  · have h2 : ⌊q + 1 / 2⌋ < 256 := by
      rw [Int.floor_lt]; push_cast; linarith
    omega

theorem hostnameBuf_length (host : Option (List Char)) : (hostnameBuf host).length ≤ 255 := by
  simp only [hostnameBuf, List.length_take]
  omega

theorem longHost_length : longHost.length = 255 := by
  rw [longHost, List.length_replicate]

/-- Claim C1 (code_bug evidence): on the 4 GB sample the current revision
of `get_sd_memory` writes the USED megabytes (2343) into `freesize`, but
revision C of the telemetry layer writes the FREE megabytes (1562)
instead, so the used-space contract does not carry over to every
revision. -/
theorem sd_revC_reports_free :
    get_sd_memory true sdSampleC1 = (3906, 2343) ∧
    get_sd_memory_revC true sdSampleC1 = (3906, 1562) ∧
    (get_sd_memory_revC true sdSampleC1).2 ≠ (get_sd_memory true sdSampleC1).2 := by
  decide

/-- Claim C2: the CPU bucket mapping of `get_cpu_message` is 0 at
per-core load 0, is 255 at every per-core load at least 4.0, and is
non-decreasing in the per-core load. -/
theorem cpu_bucket_monotone_spec :
    cpu_bucket 0 = 0 ∧ (∀ r : ℚ, 4 ≤ r → cpu_bucket r = 255) ∧
    (∀ r s : ℚ, r ≤ s → cpu_bucket r ≤ cpu_bucket s) :=
  ⟨cpu_bucket_zero, fun _ h => cpu_bucket_sat h, fun _ _ h => cpu_bucket_mono h⟩

/-- Witness for claim C2: the monotonicity conjunct applied at the
concrete loads 1 and 2. -/
theorem cpu_bucket_monotone_spec_witness : cpu_bucket 1 ≤ cpu_bucket 2 :=
  cpu_bucket_monotone_spec.2.2 1 2 (by norm_num)

/-- Claim C3: with the IP display disabled, `get_ip_address` returns the
(buffer-resident) hostname uppercased, whatever the interface lookup
found; in particular hostname `"node1"` yields `"NODE1"`. -/
theorem ip_disabled_uppercase (h : List Char) (ip : Option (List Char))
    (hlen : h.length ≤ 255) :
    get_ip_address true (some h) ip = upcase_ascii h ∧
    get_ip_address true (some nodeHost) ip = ['N', 'O', 'D', 'E', '1'] := by
  constructor
  · simp [get_ip_address, hostnameBuf, List.take_of_length_le hlen]
  · rfl

/-- Witness for claim C3: instantiated at hostname `"node1"` with no
IPv4 address found. -/
theorem ip_disabled_uppercase_witness :
    get_ip_address true (some nodeHost) none = upcase_ascii nodeHost ∧
    get_ip_address true (some nodeHost) none = ['N', 'O', 'D', 'E', '1'] :=
  ip_disabled_uppercase nodeHost none (by decide)

/-- Counterexample to claim C4 as stated: on the 64 TiB sample
(`f_bavail ≤ f_blocks`, so the sample is a well-formed `statvfs` result)
the total rounds to 65536 GB, which the `uint16_t` cast truncates to 0,
while the used space rounds to 65535 GB; the used output exceeds the
total output. -/
theorem disk_used_le_total_counterexample :
    diskSampleBig.f_bavail ≤ diskSampleBig.f_blocks ∧
    ¬ ((get_hard_disk_memory true diskSampleBig).2.2 ≤
        (get_hard_disk_memory true diskSampleBig).2.1) := by
  decide

/-- Claim C4 as amended: for every successful `statvfs("/")` sample whose
byte total does not overflow 64 bits, whose available-block count does not
exceed the total-block count, and whose rounded gigabyte total fits in
`uint16_t`, the used-GB output of `get_hard_disk_memory` never exceeds the
total-GB output. -/
theorem disk_used_le_total (v : Statvfs)
    (hmul : v.f_blocks * sd_block v < 2 ^ 64)
    (hav : v.f_bavail ≤ v.f_blocks)
    (hfit : (v.f_blocks * sd_block v + 2 ^ 29) / 2 ^ 30 < 2 ^ 16) :
    (get_hard_disk_memory true v).2.2 ≤ (get_hard_disk_memory true v).2.1 := by
  have havle : v.f_bavail * sd_block v ≤ v.f_blocks * sd_block v :=
    Nat.mul_le_mul_right _ hav
  have hav64 : v.f_bavail * sd_block v < 2 ^ 64 := lt_of_le_of_lt havle hmul
  have htotadd : v.f_blocks * sd_block v + 2 ^ 29 < 2 ^ 64 := by
    have h1 : v.f_blocks * sd_block v + 2 ^ 29 < 2 ^ 16 * 2 ^ 30 :=
      (Nat.div_lt_iff_lt_mul (by norm_num)).mp hfit
    omega
  have hsub : v.f_blocks * sd_block v - v.f_bavail * sd_block v ≤
      v.f_blocks * sd_block v := Nat.sub_le _ _
  have husedadd : v.f_blocks * sd_block v - v.f_bavail * sd_block v + 2 ^ 29 < 2 ^ 64 := by
    omega
  simp only [get_hard_disk_memory, if_pos, u64_id hmul, u64_id hav64,
    sub64_eq havle hmul, u64_id htotadd, u64_id husedadd]
  have hdivle : (v.f_blocks * sd_block v - v.f_bavail * sd_block v + 2 ^ 29) / 2 ^ 30 ≤
      (v.f_blocks * sd_block v + 2 ^ 29) / 2 ^ 30 :=
    Nat.div_le_div_right (by omega)
  have hdu : (v.f_blocks * sd_block v - v.f_bavail * sd_block v + 2 ^ 29) / 2 ^ 30 < 2 ^ 16 :=
    lt_of_le_of_lt hdivle hfit
  simp only [u16_id hfit, u16_id hdu]
  exact hdivle

/-- Witness for the amended claim C4: instantiated at the small
4 MB sample, whose hypotheses all hold by computation. -/
theorem disk_used_le_total_witness :
    (sdSampleSmall.f_blocks * sd_block sdSampleSmall < 2 ^ 64 ∧
      sdSampleSmall.f_bavail ≤ sdSampleSmall.f_blocks ∧
      (sdSampleSmall.f_blocks * sd_block sdSampleSmall + 2 ^ 29) / 2 ^ 30 < 2 ^ 16) ∧
    (get_hard_disk_memory true sdSampleSmall).2.2 ≤
      (get_hard_disk_memory true sdSampleSmall).2.1 :=
  ⟨⟨by decide, by decide, by decide⟩,
    disk_used_le_total sdSampleSmall (by decide) (by decide) (by decide)⟩

/-- Claim C5: at a per-core load of exactly 2.0 (load average 8.0 on a
4-core host) `get_cpu_message` returns 128, which is round-half-up of
2.0 × 255/4 = 127.5 and lies within 127 ± 1. -/
theorem cpu_bucket_half_load :
    get_cpu_message true 8 4 = 128 ∧ cpu_bucket 2 = 128 ∧ (cpu_bucket 2 - 127).natAbs ≤ 1 := by
  have hf : ⌊(2 * (255 / 4) + 1 / 2 : ℚ)⌋ = 128 := by
    rw [Int.floor_eq_iff]; norm_num
  have h0 : clampLoad 2 = 2 := by norm_num [clampLoad]
  have ht : truncInt (clampLoad 2 * (255 / 4) + 1 / 2) = 128 := by
    rw [h0, truncInt_of_nonneg (by norm_num)]; exact hf
  have hb : cpu_bucket 2 = 128 := by simp only [cpu_bucket, ht]; norm_num
  refine ⟨?_, hb, by rw [hb]; norm_num⟩
  have hdiv : ((8:ℚ) / (((4:ℤ)):ℚ)) = 2 := by norm_num
  simp only [get_cpu_message, if_pos]
  norm_num [hdiv, hb]

/-- Claim C6: `get_temperature` always returns a value in 0–255 after
unit adjustment and clamping, and when both thermal-zone reads fail it
returns the fixed value determined by the configured unit alone
(32 under Fahrenheit, 0 under Celsius), identical on every failing
call. -/
theorem get_temperature_spec (read : Option ℤ) (f : Bool) :
    (0 ≤ get_temperature read f ∧ get_temperature read f ≤ 255) ∧
    get_temperature none f = (if f then 32 else 0) := by
  constructor
  · simp only [get_temperature]
    apply truncInt_bounds <;> split_ifs <;> linarith
  · cases f
    · have h : ⌊(0 + 1 / 2 : ℚ)⌋ = 0 := by rw [Int.floor_eq_iff]; norm_num
      norm_num [get_temperature, truncInt_of_nonneg, h]
    · have h : ⌊(32 + 1 / 2 : ℚ)⌋ = 32 := by rw [Int.floor_eq_iff]; norm_num
      norm_num [get_temperature, truncInt_of_nonneg, h]

/-- Counterexample to claim C7 as stated: with a 255-character hostname
(the longest the 256-byte buffer holds) and the address `"10.0.0.1"`,
the identity string `"<hostname>: 10.0.0.1"` is 265 bytes long,
exceeding the claimed 256-byte bound. -/
theorem ip_length_counterexample :
    ¬ ((get_ip_address false (some longHost) (some ipSample)).length ≤ 256) := by
  have e : get_ip_address false (some longHost) (some ipSample) =
      List.take 255 longHost ++ colonSpace ++ ipSample := rfl
  have h2 : colonSpace.length = 2 := rfl
  have h8 : ipSample.length = 8 := rfl
  have h : (get_ip_address false (some longHost) (some ipSample)).length = 265 := by
    rw [e, List.length_append, List.length_append, List.length_take, longHost_length, h2, h8]
    omega
  omega

/-- Claim C7 as amended: for every host state and configuration, provided
the IPv4 text has at most 15 characters (the most `inet_ntop` can produce
in the `INET_ADDRSTRLEN` buffer), the identity string returned by
`get_ip_address` is at most 272 bytes (255-byte hostname + 2-byte
separator + 15-byte address) and takes one of the three shapes —
uppercased hostname, bare hostname, or `"<hostname>: <ipv4>"` — and the
hostname falls back to `"unknown"` when `gethostname` fails. -/
theorem ip_identity_spec (d : Bool) (host ipv : Option (List Char))
    (hip : ∀ s, ipv = some s → s.length ≤ 15) :
    (get_ip_address d host ipv).length ≤ 272 ∧
    (get_ip_address d host ipv = upcase_ascii (hostnameBuf host) ∨
      get_ip_address d host ipv = hostnameBuf host ∨
      ∃ s, ipv = some s ∧ get_ip_address d host ipv = hostnameBuf host ++ colonSpace ++ s) ∧
    (host = none → hostnameBuf host = unknownHost) := by
  have hb := hostnameBuf_length host
  refine ⟨?_, ?_, ?_⟩
  · cases d
    · cases hiv : ipv with
      | none => simp only [get_ip_address]; simp; omega
      | some s =>
        have hs := hip s hiv
        simp only [get_ip_address, hiv]
        simp [colonSpace]
        omega
    · simp only [get_ip_address, upcase_ascii]
      simp
      omega
  · cases d
    · cases hiv : ipv with
      | none => right; left; simp [get_ip_address, hiv]
      | some s => right; right; exact ⟨s, rfl, by simp [get_ip_address, hiv]⟩
    · left; simp [get_ip_address]
  · intro hn; subst hn; decide

/-- Witness for the amended claim C7: instantiated at hostname
`"node1"`, IP display disabled, no address found. -/
theorem ip_identity_spec_witness :
    (get_ip_address true (some nodeHost) none).length ≤ 272 ∧
    (get_ip_address true (some nodeHost) none = upcase_ascii (hostnameBuf (some nodeHost)) ∨
      get_ip_address true (some nodeHost) none = hostnameBuf (some nodeHost) ∨
      ∃ s, (none : Option (List Char)) = some s ∧
        get_ip_address true (some nodeHost) none =
          hostnameBuf (some nodeHost) ++ colonSpace ++ s) ∧
    ((some nodeHost : Option (List Char)) = none →
      hostnameBuf (some nodeHost) = unknownHost) :=
  ip_identity_spec true (some nodeHost) none (fun s hs => by cases hs)

/-- Claim C8: when any output pointer is NULL, `get_sd_memory` and
`get_cpu_memory` return without performing any write, and
`get_hard_disk_memory` returns the failure code 1 without performing any
write. -/
theorem null_pointer_guards (a b : Bool) (hab : (a || b) = true) :
    (∀ ok v, get_sd_memory_call a b ok v = none) ∧
    (∀ ok t av, get_cpu_memory_call a b ok t av = none) ∧
    (∀ ok v, get_hard_disk_memory_call a b ok v = (1, none)) := by
  refine ⟨fun ok v => ?_, fun ok t av => ?_, fun ok v => ?_⟩ <;>
    simp [get_sd_memory_call, get_cpu_memory_call, get_hard_disk_memory_call, hab]

/-- Witness for claim C8: the first pointer NULL, the second valid. -/
theorem null_pointer_guards_witness :
    (∀ ok v, get_sd_memory_call true false ok v = none) ∧
    (∀ ok t av, get_cpu_memory_call true false ok t av = none) ∧
    (∀ ok v, get_hard_disk_memory_call true false ok v = (1, none)) :=
  null_pointer_guards true false (by decide)

/-- Claim C9: `get_ip_address_new` returns exactly what `get_ip_address`
returns on every input state — its body is a single delegation. -/
theorem ip_new_equals_old (d : Bool) (host ip : Option (List Char)) :
    get_ip_address_new d host ip = get_ip_address d host ip := rfl

/-- Counterexample to claim C10 as stated: on the 4 PiB sample
(`f_bfree ≤ f_blocks`) the total is `2^32` MB, which the `uint32_t`
cast truncates to 0, while the used space is `2^32 - 1` MB; the used
output exceeds the total output. -/
theorem sd_used_le_total_counterexample :
    sdSampleBig.f_bfree ≤ sdSampleBig.f_blocks ∧
    ¬ ((get_sd_memory true sdSampleBig).2 ≤ (get_sd_memory true sdSampleBig).1) := by
  decide

/-- Claim C10 as amended: for every `statvfs("/")` sample whose byte
total does not overflow 64 bits, whose free-block count does not exceed
the total-block count, and whose megabyte total fits in `uint32_t`, the
used-MB output of `get_sd_memory` never exceeds the total-MB output; and
on `statvfs` failure both outputs are exactly 0. -/
theorem sd_used_le_total (v : Statvfs)
    (hmul : v.f_blocks * sd_block v < 2 ^ 64)
    (hfree : v.f_bfree ≤ v.f_blocks)
    (hfit : v.f_blocks * sd_block v / (1024 * 1024) < 2 ^ 32) :
    (get_sd_memory true v).2 ≤ (get_sd_memory true v).1 ∧
    get_sd_memory false v = (0, 0) := by
  constructor
  · have hfr : v.f_bfree * sd_block v ≤ v.f_blocks * sd_block v :=
      Nat.mul_le_mul_right _ hfree
    have hfr64 : v.f_bfree * sd_block v < 2 ^ 64 := lt_of_le_of_lt hfr hmul
    simp only [get_sd_memory, if_pos, u64_id hmul, u64_id hfr64,
      sub64_eq hfr hmul]
    have hsub : v.f_blocks * sd_block v - v.f_bfree * sd_block v ≤
        v.f_blocks * sd_block v := Nat.sub_le _ _
    have hdivle : (v.f_blocks * sd_block v - v.f_bfree * sd_block v) / (1024 * 1024) ≤
        v.f_blocks * sd_block v / (1024 * 1024) := Nat.div_le_div_right hsub
    have hdu : (v.f_blocks * sd_block v - v.f_bfree * sd_block v) / (1024 * 1024) < 2 ^ 32 :=
      lt_of_le_of_lt hdivle hfit
    simp only [u32_id hfit, u32_id hdu]
    exact hdivle
  · rfl

/-- Witness for the amended claim C10: instantiated at the 4 GB sample,
whose hypotheses all hold by computation. -/
theorem sd_used_le_total_witness :
    (sdSampleC1.f_blocks * sd_block sdSampleC1 < 2 ^ 64 ∧
      sdSampleC1.f_bfree ≤ sdSampleC1.f_blocks ∧
      sdSampleC1.f_blocks * sd_block sdSampleC1 / (1024 * 1024) < 2 ^ 32) ∧
    ((get_sd_memory true sdSampleC1).2 ≤ (get_sd_memory true sdSampleC1).1 ∧
      get_sd_memory false sdSampleC1 = (0, 0)) :=
  ⟨⟨by decide, by decide, by decide⟩,
    sd_used_le_total sdSampleC1 (by decide) (by decide) (by decide)⟩

end RpiInfo
